import Mathlib

/-!
# Verification of the msedge-tts core against its specification

Shallow embedding of the synthesis-protocol codec (`src/tts/mod.rs`),
the synchronous synthesis session (`src/tts/client.rs`), the
sender/reader stream pipe (`src/tts/stream.rs`) and the proxy
negotiators (`src/tts/proxy.rs`).

Conventions of the embedding:
* Rust `u8` bytes are `Nat` values below 256; where the source performs
  a machine-width cast we write the reduction `% 256` / `% 65536`
  explicitly.
* Rust text is modelled as `List Char`; the protocol frames involved
  are ASCII, so Rust's byte indices coincide with character indices.
* `serde_json::from_str`'s string-to-value phase is an external
  dependency; it is a parameter `parse_json : List Char → Option Json`.
  The shape extraction performed by `AudioMetadata::from_str` on the
  parsed value is repository code and is embedded faithfully.
* Rust panics (out-of-bounds indexing, `Option::unwrap` on `None`) are
  an explicit outcome of the embedded functions, never silently
  truncated away.
-/

namespace MsEdgeTTS

/-- `listStartsWith s p` embeds "does `s` begin with `p`". -/
def listStartsWith : List Char → List Char → Bool
  | _, [] => true
  | [], _ :: _ => false
  | a :: s, b :: p => a == b && listStartsWith s p

/-- Embeds Rust's `str::find(pat)`: index of the first occurrence of
`pat` in `s`, if any (ASCII, so byte index = char index). -/
def findSub (pat : List Char) : List Char → Option Nat
  | [] => if listStartsWith [] pat then some 0 else none
  | a :: s =>
    if listStartsWith (a :: s) pat then some 0
    else (findSub pat s).map (· + 1)

/-- Embeds Rust's `str::contains(pat)`. -/
def containsSub (s pat : List Char) : Bool :=
  (findSub pat s).isSome

/-- Embeds `u16::from_be_bytes([b0, b1]) as usize` on `u8` inputs; the
`% 256` writes out the `u8` range explicitly. -/
def u16FromBe (b0 b1 : Nat) : Nat :=
  (b0 % 256) * 256 + (b1 % 256)

/-- A JSON value, as produced by `serde_json::from_str`. -/
inductive Json where
  | null
  | bool (b : Bool)
  | num (n : Int)
  | str (s : String)
  | arr (items : List Json)
  | obj (fields : List (String × Json))

namespace Json

/-- Embeds `serde_json::Value` object indexing `value[key]`, which
yields `Null` when the key is missing or the value is not an object. -/
def get (j : Json) (key : String) : Json :=
  match j with
  | .obj fields =>
    match fields.find? (fun f => f.1 == key) with
    | some f => f.2
    | none => .null
  | _ => .null

/-- Embeds `Value::as_array`. -/
def asArray : Json → Option (List Json)
  | .arr items => some items
  | _ => none

/-- Embeds `Value::as_str`. -/
def asStr : Json → Option String
  | .str s => some s
  | _ => none

/-- Embeds `Value::as_u64` (defined exactly on non-negative integral
numbers; the embedded `num` carries an `Int`). -/
def asU64 : Json → Option Nat
  | .num n => if 0 ≤ n then some n.toNat else none
  | _ => none

end Json

/-- `AudioMetadata` (src/tts/mod.rs lines 84-91). -/
structure AudioMetadata where
  metadata_type : Option String
  offset : Nat
  duration : Nat
  text : Option String
  length : Nat
  boundary_type : Option String
deriving DecidableEq

/-- The per-item extraction inside `AudioMetadata::from_str`
(src/tts/mod.rs lines 99-114). -/
def metadataOfItem (item : Json) : AudioMetadata :=
  { metadata_type := (item.get "Type").asStr
    offset := (((item.get "Data").get "Offset").asU64).getD 0
    duration := (((item.get "Data").get "Duration").asU64).getD 0
    text := (((item.get "Data").get "text").get "Text").asStr
    length := ((((item.get "Data").get "text").get "Length").asU64).getD 0
    boundary_type := (((item.get "Data").get "text").get "BoundaryType").asStr }

/-- Errors surfaced by `process_message` (src/error.rs): either
`Error::UnexpectedMessage` carrying the offending text, or
`Error::SerdeJsonError` from the `?` on `serde_json::from_str`. -/
inductive Err where
  | unexpectedMessage (text : List Char)
  | serdeJson
deriving DecidableEq

/-- `AudioMetadata::from_str` (src/tts/mod.rs lines 94-123), with the
external string-to-value phase of `serde_json` as parameter
`parse_json`. -/
def audioMetadataFromStr (parse_json : List Char → Option Json)
    (text : List Char) : Except Err (List AudioMetadata) :=
  match parse_json text with
  | none => .error .serdeJson
  | some value =>
    match (value.get "Metadata").asArray with
    | some items => .ok (items.map metadataOfItem)
    | none => .error (.unexpectedMessage text)

/-- A `tungstenite::Message` as far as `process_message` inspects it:
text, binary, close, or anything else (ping/pong/raw frame). -/
inductive Msg where
  | text (s : List Char)
  | binary (bytes : List Nat)
  | close
  | other
deriving DecidableEq

/-- `ProcessedMessage` (src/tts/mod.rs lines 126-129): an audio chunk
with its payload offset, or a list of metadata events. -/
inductive ProcessedMessage where
  | audioBytes (bytes : List Nat) (index : Nat)
  | audioMetadata (metadata : List AudioMetadata)
deriving DecidableEq

/-- Outcome of one `process_message` call: `Ok(None)` / `Ok(Some _)`,
a returned error, or a Rust panic (out-of-bounds `bytes[0]`/`bytes[1]`
indexing). -/
inductive PMOut where
  | ok (msg : Option ProcessedMessage)
  | err (e : Err)
  | panicked
deriving DecidableEq

/-- The turn-state flags threaded through `process_message` by
`&mut bool` references. -/
structure TurnFlags where
  turn_start : Bool
  response : Bool
  turn_end : Bool
deriving DecidableEq

/-- `process_message` (src/tts/mod.rs lines 131-179). Returns the
outcome together with the flag values after the call. -/
def process_message (parse_json : List Char → Option Json) (message : Msg)
    (fl : TurnFlags) : PMOut × TurnFlags :=
  match message with
  | .text text =>
    if containsSub text "audio.metadata".toList then
      match findSub "\r\n\r\n".toList text with
      | some index =>
        match audioMetadataFromStr parse_json (text.drop (index + 4)) with
        | .ok metadata => (.ok (some (.audioMetadata metadata)), fl)
        | .error e => (.err e, fl)
      | none => (.ok none, fl)
    else if containsSub text "turn.start".toList then
      (.ok none, { fl with turn_start := true })
    else if containsSub text "response".toList then
      (.ok none, { fl with response := true })
    else if containsSub text "turn.end".toList then
      (.ok none, { fl with turn_end := true })
    else
      (.err (.unexpectedMessage text), fl)
  | .binary bytes =>
    if fl.turn_start || fl.response then
      match bytes with
      | b0 :: b1 :: _ =>
        (.ok (some (.audioBytes bytes (u16FromBe b0 b1 + 2))), fl)
      | _ => (.panicked, fl)
    else
      (.ok none, fl)
  | .close => (.ok none, { fl with turn_end := true })
  | .other => (.err (.unexpectedMessage []), fl)

/-! ## Synchronous synthesis session (src/tts/client.rs lines 26-67) -/

/-- Outcome of the receive loop inside `MSEdgeTTSClient::synthesize`:
the accumulated `(bytes, index)` chunks and metadata at loop exit, a
propagated error, a panic, or `blocked` when the message sequence runs
out before `turn_end` (the next `websocket.read()` would block). -/
inductive LoopOut where
  | done (audio_bytes : List (List Nat × Nat)) (audio_metadata : List AudioMetadata)
  | err (e : Err)
  | panicked
  | blocked
deriving DecidableEq

/-- The receive loop of `synthesize` (src/tts/client.rs lines 37-54),
over the sequence of messages the transport will deliver. -/
def synthesize_loop (parse_json : List Char → Option Json) :
    List Msg → TurnFlags → List (List Nat × Nat) → List AudioMetadata → LoopOut
  | [], fl, ab, am =>
    if fl.turn_end then .done ab am else .blocked
  | m :: rest, fl, ab, am =>
    if fl.turn_end then .done ab am
    else
      match process_message parse_json m fl with
      | (.ok none, fl') => synthesize_loop parse_json rest fl' ab am
      | (.ok (some (.audioBytes b i)), fl') =>
        synthesize_loop parse_json rest fl' (ab ++ [(b, i)]) am
      | (.ok (some (.audioMetadata md)), fl') =>
        synthesize_loop parse_json rest fl' ab (am ++ md)
      | (.err e, _) => .err e
      | (.panicked, _) => .panicked

/-- The final concatenation of `synthesize` (src/tts/client.rs lines
56-60): `flat_map(|(bytes, index)| &bytes[*index..])`. The slice
panics when `index > bytes.len()`; `none` embeds that panic. -/
def concat_payloads : List (List Nat × Nat) → Option (List Nat)
  | [] => some []
  | (bytes, index) :: rest =>
    if index ≤ bytes.length then
      (concat_payloads rest).map (fun tail => bytes.drop index ++ tail)
    else none

/-- Result of a whole `synthesize` call: the `SynthesizedAudio` fields
`audio_bytes` and `audio_metadata` (`audio_format` is copied verbatim
from the config and is not modelled), or the abnormal outcomes. -/
inductive SynthOut where
  | ok (audio_bytes : List Nat) (audio_metadata : List AudioMetadata)
  | err (e : Err)
  | panicked
  | blocked
deriving DecidableEq

/-- `MSEdgeTTSClient::synthesize` (src/tts/client.rs lines 26-67),
as a function of the inbound message sequence. Both turn flags start
`false` and the accumulators start empty (lines 32-36). -/
def synthesize (parse_json : List Char → Option Json) (msgs : List Msg) : SynthOut :=
  match synthesize_loop parse_json msgs ⟨false, false, false⟩ [] [] with
  | .done ab am =>
    match concat_payloads ab with
    | some bytes => .ok bytes am
    | none => .panicked
  | .err e => .err e
  | .panicked => .panicked
  | .blocked => .blocked

/-! ## Stream pipe (src/tts/stream.rs)

The sync `Sender`/`Reader` pair shares one websocket and one
condition-variable-guarded boolean `can_read`. The embedding keeps the
shared boolean, the reader-owned turn flags, and a ghost counter
`outstanding` of requests sent but not yet fully drained. -/

/-- Joint state of one `Sender`/`Reader` pair. `can_read` is the gate
boolean behind the `Condvar`; the three flags live in `Reader`;
`outstanding` is ghost instrumentation counting requests written but
not yet drained. -/
structure PipeState where
  can_read : Bool
  turn_start : Bool
  response : Bool
  turn_end : Bool
  outstanding : Nat
deriving DecidableEq

/-- `_msedge_tts_split` initial state (src/tts/stream.rs lines 68-85):
gate `false`, flags `false`. -/
def pipe_init : PipeState := ⟨false, false, false, false, 0⟩

/-- `Sender::send` (src/tts/stream.rs lines 97-113): `none` when the
call blocks on `cvar.wait` (gate still "data pending"); otherwise it
writes the two messages, sets the gate and notifies. -/
def sender_send (s : PipeState) : Option PipeState :=
  if s.can_read then none
  else some { s with can_read := true, outstanding := s.outstanding + 1 }

/-- Outcome of `Reader::read` on one delivered message. -/
inductive ReadOut where
  | ok (resp : Option ProcessedMessage) (s : PipeState)
  | err (e : Err) (s : PipeState)
  | panicked
  | blocked
deriving DecidableEq

/-- `Reader::read` (src/tts/stream.rs lines 135-159): wait for the
gate, classify one frame, and when all three flags are simultaneously
true reset them, drop the gate and notify. On a classification error
the reset block is skipped (`?` returns early). -/
def reader_read (parse_json : List Char → Option Json) (m : Msg)
    (s : PipeState) : ReadOut :=
  if s.can_read then
    match process_message parse_json m ⟨s.turn_start, s.response, s.turn_end⟩ with
    | (.ok out, fl') =>
      if fl'.turn_start && fl'.response && fl'.turn_end then
        .ok out ⟨false, false, false, false, s.outstanding - 1⟩
      else
        .ok out { s with turn_start := fl'.turn_start, response := fl'.response,
                         turn_end := fl'.turn_end }
    | (.err e, fl') =>
      .err e { s with turn_start := fl'.turn_start, response := fl'.response,
                      turn_end := fl'.turn_end }
    | (.panicked, _) => .panicked
  else .blocked

/-- One completed (non-blocking, non-panicking) operation on the
shared connection. -/
inductive PipeStep (parse_json : List Char → Option Json) :
    PipeState → PipeState → Prop
  | send (s s' : PipeState) : sender_send s = some s' → PipeStep parse_json s s'
  | read (m : Msg) (s s' : PipeState) (out : Option ProcessedMessage) :
      reader_read parse_json m s = .ok out s' → PipeStep parse_json s s'
  | readErr (m : Msg) (s s' : PipeState) (e : Err) :
      reader_read parse_json m s = .err e s' → PipeStep parse_json s s'

/-- States reachable from the freshly split pair. -/
inductive PipeReachable (parse_json : List Char → Option Json) : PipeState → Prop
  | init : PipeReachable parse_json pipe_init
  | step {s s' : PipeState} : PipeReachable parse_json s →
      PipeStep parse_json s s' → PipeReachable parse_json s'

/-! ## HTTP CONNECT proxy (src/tts/proxy.rs lines 89-158) -/

/-- The loop guard of `http_proxy`'s reply reader
(src/tts/proxy.rs line 141): `n >= 4 && &buf[n - 4..n] == b"\r\n\r\n"`. -/
def ends_with_crlf2 (buf : List Nat) : Bool :=
  decide (4 ≤ buf.length) && (buf.drop (buf.length - 4) == [13, 10, 13, 10])

/-- One `stream.read(&mut buf[n..])` (src/tts/proxy.rs line 140):
the next chunk the peer offers is truncated to the remaining buffer
space; an exhausted stream (EOF, or an empty slice once `n = 1024`)
returns no bytes. -/
def http_read_step (buf : List Nat) (chunks : List (List Nat)) :
    List Nat × List (List Nat) :=
  match chunks with
  | [] => (buf, [])
  | c :: rest => (buf ++ c.take (1024 - buf.length), rest)

/-- The reply-reading loop of `http_proxy` (src/tts/proxy.rs lines
137-144), fuel-indexed: `some buf` when the loop breaks within `fuel`
iterations, `none` when it is still running after `fuel` iterations. -/
def http_proxy_read_loop : Nat → List Nat → List (List Nat) → Option (List Nat)
  | 0, _, _ => none
  | fuel + 1, buf, chunks =>
    let st := http_read_step buf chunks
    if ends_with_crlf2 st.1 then some st.1
    else http_proxy_read_loop fuel st.1 st.2

/-- Result of `http_proxy` after the reply is parsed. -/
inductive HttpProxyResult where
  | ok
  | noStatusCode
  | badResponse (code : Nat) (reason : String)
deriving DecidableEq

/-- The response classification of `http_proxy` (src/tts/proxy.rs
lines 150-157), over the status code and reason phrase extracted by
the (external) `httparse` response parser. -/
def http_proxy_classify (code : Option Nat) (reason : Option String) :
    HttpProxyResult :=
  match code with
  | none => .noStatusCode
  | some c => if c = 200 then .ok else .badResponse c (reason.getD "")

/-! ## SOCKS5 negotiation (src/tts/proxy.rs lines 397-522, 652-667) -/

/-- The client greeting of `socks5_proxy` (src/tts/proxy.rs lines
423-428): `[0x05, 0x02, 0x00, 0x02]` when both credentials are
supplied, `[0x05, 0x01, 0x00]` otherwise. -/
def socks5_greeting (username password : Option (List Nat)) : List Nat :=
  5 :: (if username.isSome && password.isSome then [2, 0, 2] else [1, 0])

/-- `build_socks5_authentication_request` (src/tts/proxy.rs lines
652-667); `len as u8` is the explicit `% 256`. -/
def build_socks5_authentication_request (username password : List Nat) : List Nat :=
  1 :: ((if username.length = 0 then [1, 0] else username.length % 256 :: username) ++
        (if password.length = 0 then [1, 0] else password.length % 256 :: password))

/-- What `socks5_proxy` does with the 2-byte server choice. -/
inductive Socks5ChoiceOutcome where
  | proceedNoAuth
  | proceedAuth (request : List Nat)
  | errBadResponseVersion (b : Nat)
  | errBadServerChoice (b : Nat)
  | panicked
deriving DecidableEq

/-- The server-choice handling of `socks5_proxy` (src/tts/proxy.rs
lines 433-457): validate the version byte, reject choices outside
`{0x00, 0x02}`, and on `0x02` build the authentication request from
`username.unwrap()` / `password.unwrap()` — a panic when either is
absent. -/
def socks5_handle_choice (username password : Option (List Nat))
    (b0 b1 : Nat) : Socks5ChoiceOutcome :=
  if b0 ≠ 5 then .errBadResponseVersion b0
  else if b1 ≠ 0 ∧ b1 ≠ 2 then .errBadServerChoice b1
  else if b1 = 2 then
    match username, password with
    | some u, some p => .proceedAuth (build_socks5_authentication_request u p)
    | _, _ => .panicked
  else .proceedNoAuth

/-! ## Shared helper definitions and lemmas -/

/-- A `parse_json` instance that rejects every body (no metadata frame
in the run parses). -/
def pj_none : List Char → Option Json := fun _ => none

theorem drop_replicate_byte (a : Nat) :
    ∀ m n : Nat, (List.replicate n a).drop m = List.replicate (n - m) a := by
  intro m
  induction m with
  | zero => intro n; rfl
  | succ k ih =>
    intro n
    cases n with
    | zero => simp only [List.replicate_zero, List.drop_nil, Nat.zero_sub]
    | succ n => simp only [List.replicate_succ, List.drop_succ_cons, ih, Nat.succ_sub_succ]

theorem http_loop_spins_at_eof : ∀ fuel buf, ends_with_crlf2 buf = false →
    http_proxy_read_loop fuel buf [] = none := by
  intro fuel
  induction fuel with
  | zero => intro buf _; rfl
  | succ k ih =>
    intro buf h
    show (if ends_with_crlf2 (http_read_step buf []).1 then some (http_read_step buf []).1
          else http_proxy_read_loop k (http_read_step buf []).1 (http_read_step buf []).2) = none
    rw [show http_read_step buf [] = (buf, []) from rfl]
    rw [h]
    exact ih buf h

theorem full_ascii_buffer_no_terminator :
    ends_with_crlf2 (List.replicate 1024 97) = false := by
  unfold ends_with_crlf2
  rw [List.length_replicate]
  rw [show (1024 - 4 : Nat) = 1020 from rfl]
  rw [drop_replicate_byte]
  rw [show (1024 - 1020 : Nat) = 4 from rfl]
  decide

/-! ## Claim theorems -/

/-- C1 (counterexample). The claim says a binary frame shorter than
`L + 2` received after `turn.start` makes `process_message` fail with a
`TruncatedFrame` protocol error rather than emit `AudioBytes`. It is
false: the frame `[0x00, 0x05, 0x09]` (length 3 < 7 = L + 2) is
classified as `AudioBytes` with offset 7 and no error is returned —
indeed no truncation-related error variant exists in the codebase. -/
theorem truncated_frame_not_rejected :
    process_message pj_none (.binary [0, 5, 9]) ⟨true, false, false⟩ =
      (.ok (some (.audioBytes [0, 5, 9] 7)), ⟨true, false, false⟩) ∧
    ([0, 5, 9] : List Nat).length < 5 + 2 := by
  exact ⟨rfl, by decide⟩

/-- C1 (amended). `process_message` performs no length check on binary
frames: while `turnStarted || responseSeen` holds, every binary frame
`b0 :: b1 :: rest` — including one shorter than `L + 2` — is emitted as
`AudioBytes(bytes, L + 2)`; when `L + 2` exceeds the frame length the
violation surfaces only later, as an out-of-bounds slice panic in the
payload concatenation of `synthesize` (client.rs line 58). -/
theorem binary_frame_emitted_unchecked (pj : List Char → Option Json)
    (fl : TurnFlags) (b0 b1 : Nat) (rest : List Nat)
    (hfl : (fl.turn_start || fl.response) = true)
    (hshort : (b0 :: b1 :: rest).length < u16FromBe b0 b1 + 2) :
    process_message pj (.binary (b0 :: b1 :: rest)) fl =
      (.ok (some (.audioBytes (b0 :: b1 :: rest) (u16FromBe b0 b1 + 2))), fl) ∧
    concat_payloads [(b0 :: b1 :: rest, u16FromBe b0 b1 + 2)] = none := by
  constructor
  · unfold process_message
    rw [hfl]
    rfl
  · unfold concat_payloads
    rw [if_neg (by omega)]

/-- C1 (amended) witness at the concrete truncated frame
`[0x00, 0x05, 0x09]`. -/
theorem binary_frame_emitted_unchecked_witness :
    process_message pj_none (.binary [0, 5, 9]) ⟨false, true, false⟩ =
      (.ok (some (.audioBytes [0, 5, 9] (u16FromBe 0 5 + 2))), ⟨false, true, false⟩) ∧
    concat_payloads [([0, 5, 9], u16FromBe 0 5 + 2)] = none :=
  binary_frame_emitted_unchecked pj_none ⟨false, true, false⟩ 0 5 [9]
    (by decide) (by decide)

/-- C2. The SOCKS5 greeting offers exactly `{0x00, 0x02}` with
credentials and exactly `{0x00}` without, as claimed; but the claim
that a server choosing the unoffered method `0x02` without credentials
makes `socks5_proxy` return an error is wrong: the choice passes the
`buf[1] != 0x00 && buf[1] != 0x02` validation and the code then panics
on `username.unwrap()` instead of returning an error. -/
theorem socks5_unoffered_choice_panics :
    socks5_greeting none none = [5, 1, 0] ∧
    (∀ u p : List Nat, socks5_greeting (some u) (some p) = [5, 2, 0, 2]) ∧
    socks5_handle_choice none none 5 2 = .panicked ∧
    ∀ b : Nat, b ≠ 0 → b ≠ 2 → socks5_handle_choice none none 5 b = .errBadServerChoice b := by
  refine ⟨rfl, fun u p => rfl, rfl, fun b h0 h2 => ?_⟩
  unfold socks5_handle_choice
  rw [if_neg (by omega), if_pos ⟨h0, h2⟩]

/-- C2 witness: the server choice `0x03` (never offered) is rejected
with `BadServerChoice`, by the theorem applied at `b = 3`. -/
theorem socks5_unoffered_choice_panics_witness :
    socks5_handle_choice none none 5 3 = .errBadServerChoice 3 :=
  socks5_unoffered_choice_panics.2.2.2 3 (by decide) (by decide)

/-- C3. The claim says the reply-reading loop of `http_proxy` always
terminates, returning a failure once 1024 bytes are consumed without a
`\r\n\r\n` terminator. It does not: on a reply of 1024 bytes `0x61`
(no terminator anywhere) the buffer fills, every further
`read(&mut buf[n..])` on the empty slice returns 0 bytes, and the loop
runs forever — for every iteration bound `fuel` the loop is still
running. -/
theorem http_proxy_read_loop_diverges :
    ∀ fuel, http_proxy_read_loop fuel [] [List.replicate 1024 97] = none := by
  intro fuel
  cases fuel with
  | zero => rfl
  | succ k =>
    have hstep : http_read_step [] [List.replicate 1024 97] =
        (List.replicate 1024 97, []) := by
      show ((([] : List Nat) ++ (List.replicate 1024 (97 : Nat)).take
        (1024 - ([] : List Nat).length)), ([] : List (List Nat))) =
        (List.replicate 1024 97, [])
      rw [List.nil_append]
      rw [List.take_of_length_le]
      rw [List.length_replicate, List.length_nil]
    show (if ends_with_crlf2 (http_read_step [] [List.replicate 1024 97]).1 then
            some (http_read_step [] [List.replicate 1024 97]).1
          else http_proxy_read_loop k (http_read_step [] [List.replicate 1024 97]).1
            (http_read_step [] [List.replicate 1024 97]).2) = none
    rw [hstep]
    rw [full_ascii_buffer_no_terminator]
    exact http_loop_spins_at_eof k _ full_ascii_buffer_no_terminator

/-- C4. A full session receiving
`[turn.start, binary(A), metadata(M1), binary(B), turn.end]` produces
`audio_bytes` equal to A's payload (bytes after its `L + 2` sub-header)
followed by B's payload, and `audio_metadata` equal to exactly the
events of M1, mirroring frame arrival order. The metadata frame is any
text frame containing `audio.metadata` whose body after the first
`\r\n\r\n` parses to a JSON object with a `Metadata` array. -/
theorem session_output_mirrors_arrival_order
    (pj : List Char → Option Json)
    (ts mf te : List Char)
    (a0 a1 b0 b1 : Nat) (arest brest : List Nat)
    (items : List Json) (j : Json) (idx : Nat)
    (hAlen : u16FromBe a0 a1 + 2 ≤ (a0 :: a1 :: arest).length)
    (hBlen : u16FromBe b0 b1 + 2 ≤ (b0 :: b1 :: brest).length)
    (hts1 : containsSub ts "audio.metadata".toList = false)
    (hts2 : containsSub ts "turn.start".toList = true)
    (hmf1 : containsSub mf "audio.metadata".toList = true)
    (hmf2 : findSub "\r\n\r\n".toList mf = some idx)
    (hmf3 : pj (mf.drop (idx + 4)) = some j)
    (hmf4 : (j.get "Metadata").asArray = some items)
    (hte1 : containsSub te "audio.metadata".toList = false)
    (hte2 : containsSub te "turn.start".toList = false)
    (hte3 : containsSub te "response".toList = false)
    (hte4 : containsSub te "turn.end".toList = true) :
    synthesize pj [.text ts, .binary (a0 :: a1 :: arest), .text mf,
        .binary (b0 :: b1 :: brest), .text te] =
      .ok ((a0 :: a1 :: arest).drop (u16FromBe a0 a1 + 2) ++
           (b0 :: b1 :: brest).drop (u16FromBe b0 b1 + 2))
          (items.map metadataOfItem) := by
  have hloop : synthesize_loop pj [.text ts, .binary (a0 :: a1 :: arest), .text mf,
        .binary (b0 :: b1 :: brest), .text te] ⟨false, false, false⟩ [] [] =
      LoopOut.done [((a0 :: a1 :: arest), u16FromBe a0 a1 + 2),
                    ((b0 :: b1 :: brest), u16FromBe b0 b1 + 2)]
                   (items.map metadataOfItem) := by
    simp only [synthesize_loop, process_message, hts1, hts2, hmf1, hmf2, hmf3, hmf4,
      audioMetadataFromStr, hte1, hte2, hte3, hte4]
    simp
  have hconcat : concat_payloads [((a0 :: a1 :: arest), u16FromBe a0 a1 + 2),
        ((b0 :: b1 :: brest), u16FromBe b0 b1 + 2)] =
      some ((a0 :: a1 :: arest).drop (u16FromBe a0 a1 + 2) ++
            (b0 :: b1 :: brest).drop (u16FromBe b0 b1 + 2)) := by
    have h1 : concat_payloads [((b0 :: b1 :: brest), u16FromBe b0 b1 + 2)] =
        some ((b0 :: b1 :: brest).drop (u16FromBe b0 b1 + 2)) := by
      unfold concat_payloads
      rw [if_pos hBlen]
      unfold concat_payloads
      simp
    unfold concat_payloads
    rw [if_pos hAlen, h1]
    rfl
  unfold synthesize
  rw [hloop]
  dsimp only
  rw [hconcat]

/-- A single word-boundary metadata item, as the server sends it. -/
def wordBoundaryItem : Json :=
  .obj [("Type", .str "WordBoundary"),
        ("Data", .obj [("Offset", .num 100), ("Duration", .num 50),
          ("text", .obj [("Text", .str "Hi"), ("Length", .num 2),
            ("BoundaryType", .str "Word")])])]

/-- A `parse_json` instance for the concrete session below: the body
`"J"` parses to an object whose `Metadata` array holds one
word-boundary item. -/
def pj_session : List Char → Option Json := fun s =>
  if s = "J".toList then some (.obj [("Metadata", .arr [wordBoundaryItem])]) else none

/-- C4 witness: a concrete five-frame session. Audio frame A is
`[0x00, 0x05, 10, 11, 12, 13, 14, 102, 103, 104]` (payload
`[102, 103, 104]`), B is `[0x00, 0x00, 200]` (payload `[200]`), and
the metadata frame carries one word-boundary event. -/
theorem session_output_mirrors_arrival_order_witness :
    synthesize pj_session [.text "Path:turn.start".toList,
      .binary [0, 5, 10, 11, 12, 13, 14, 102, 103, 104],
      .text "Path:audio.metadata\r\n\r\nJ".toList,
      .binary [0, 0, 200], .text "Path:turn.end".toList] =
      .ok [102, 103, 104, 200]
        [⟨some "WordBoundary", 100, 50, some "Hi", 2, some "Word"⟩] := by
  rw [session_output_mirrors_arrival_order pj_session "Path:turn.start".toList
    "Path:audio.metadata\r\n\r\nJ".toList "Path:turn.end".toList 0 5 0 0
    [10, 11, 12, 13, 14, 102, 103, 104] [200] [wordBoundaryItem]
    (.obj [("Metadata", .arr [wordBoundaryItem])]) 19
    (by decide) (by decide) (by decide) (by decide) (by decide) (by decide)
    rfl rfl (by decide) (by decide) (by decide) (by decide)]
  decide

/-- C5. A binary frame of at least `L + 2` bytes received while
`turnStarted || responseSeen` holds is classified as `AudioBytes` with
payload offset `L + 2`, `L` the big-endian `u16` of the first two
bytes, leaving the flags unchanged; in particular the frame
`[0x00, 0x05, a, b, c, d, e, f, g, h]` yields offset 7 and payload
`[f, g, h]`. -/
theorem audio_payload_offset (pj : List Char → Option Json)
    (fl : TurnFlags) (b0 b1 : Nat) (rest : List Nat)
    (hfl : (fl.turn_start || fl.response) = true) :
    process_message pj (.binary (b0 :: b1 :: rest)) fl =
      (.ok (some (.audioBytes (b0 :: b1 :: rest) (u16FromBe b0 b1 + 2))), fl) ∧
    (b0 :: b1 :: rest).drop (u16FromBe b0 b1 + 2) = rest.drop (u16FromBe b0 b1) := by
  constructor
  · unfold process_message
    rw [hfl]
    rfl
  · show List.drop (u16FromBe b0 b1 + 1 + 1) (b0 :: b1 :: rest) = _
    rw [List.drop_succ_cons, List.drop_succ_cons]

/-- C5 witness at the concrete frame of the specification,
`[0x00, 0x05, 0x0a, 0x0b, 0x0c, 0x0d, 0x0e, 0x66, 0x67, 0x68]` after
`turn.start`: offset `7`, payload `[0x66, 0x67, 0x68]`. -/
theorem audio_payload_offset_witness :
    process_message pj_none (.binary [0, 5, 10, 11, 12, 13, 14, 102, 103, 104])
        ⟨true, false, false⟩ =
      (.ok (some (.audioBytes [0, 5, 10, 11, 12, 13, 14, 102, 103, 104]
        (u16FromBe 0 5 + 2))), ⟨true, false, false⟩) ∧
    ([0, 5, 10, 11, 12, 13, 14, 102, 103, 104] : List Nat).drop (u16FromBe 0 5 + 2) =
      [102, 103, 104] := by
  have h := audio_payload_offset pj_none ⟨true, false, false⟩ 0 5
    [10, 11, 12, 13, 14, 102, 103, 104] (by decide)
  exact ⟨h.1, by decide⟩

/-- C6. `http_proxy`'s response classification succeeds exactly when
the parsed status code is `200`; a missing status code yields
`NoStatusCode`, and any other code `c` yields `BadResponse(c, reason)`
with the reason phrase (defaulted to `""` when absent). -/
theorem http_proxy_success_iff_200 (code : Option Nat) (reason : Option String) :
    (http_proxy_classify code reason = .ok ↔ code = some 200) ∧
    http_proxy_classify none reason = .noStatusCode ∧
    (∀ c : Nat, c ≠ 200 →
      http_proxy_classify (some c) reason = .badResponse c (reason.getD "")) := by
  refine ⟨?_, rfl, ?_⟩
  · cases code with
    | none => simp [http_proxy_classify]
    | some c =>
      by_cases hc : c = 200
      · subst hc
        simp [http_proxy_classify]
      · simp [http_proxy_classify, hc]
  · intro c hc
    simp [http_proxy_classify, hc]

/-- C6 witness: status 407 surfaces `BadResponse(407, reason)` and
status 200 succeeds, by the theorem applied at those codes. -/
theorem http_proxy_success_iff_200_witness :
    http_proxy_classify (some 407) (some "Proxy Authentication Required") =
      .badResponse 407 "Proxy Authentication Required" ∧
    http_proxy_classify (some 200) none = .ok :=
  ⟨(http_proxy_success_iff_200 (some 407)
      (some "Proxy Authentication Required")).2.2 407 (by decide),
   (http_proxy_success_iff_200 (some 200) none).1.mpr rfl⟩

/-- C8. A binary frame received while both `turn_start` and `response`
are `false` is silently dropped: `process_message` returns `Ok(None)`
with no error and all three flags unchanged. -/
theorem binary_before_turn_dropped (pj : List Char → Option Json)
    (bytes : List Nat) (te : Bool) :
    process_message pj (.binary bytes) ⟨false, false, te⟩ =
      (.ok none, ⟨false, false, te⟩) := by
  rfl

/-- C9. Whenever `process_message` returns an error — an unexpected
text message, an unexpected non-text/non-binary/non-close frame, or a
metadata JSON parse/shape failure — the three turn-state flags keep
the values they had on entry. -/
theorem error_path_preserves_flags (pj : List Char → Option Json)
    (m : Msg) (fl : TurnFlags) (e : Err) (fl' : TurnFlags)
    (h : process_message pj m fl = (.err e, fl')) : fl' = fl := by
  unfold process_message at h
  cases m with
  | text s =>
    dsimp only at h
    split at h
    · split at h
      · split at h
        · simp at h
        · simp only [Prod.mk.injEq] at h; exact h.2.symm
      · simp at h
    · split at h
      · simp at h
      · split at h
        · simp at h
        · split at h
          · simp at h
          · simp only [Prod.mk.injEq] at h; exact h.2.symm
  | binary bytes =>
    dsimp only at h
    split at h
    · split at h <;> simp at h
    · simp at h
  | close => simp at h
  | other => simp only [Prod.mk.injEq] at h; exact h.2.symm

/-- C9 witness: an unexpected ping-like frame errors and leaves the
flags `⟨true, false, true⟩` exactly as they were. -/
theorem error_path_preserves_flags_witness :
    process_message pj_none .other ⟨true, false, true⟩ =
      (.err (.unexpectedMessage []), ⟨true, false, true⟩) ∧
    (⟨true, false, true⟩ : TurnFlags) = ⟨true, false, true⟩ :=
  ⟨rfl, error_path_preserves_flags pj_none .other ⟨true, false, true⟩
    (.unexpectedMessage []) ⟨true, false, true⟩ rfl⟩

/-- C10. On binary frames with `turnStarted || responseSeen` set,
`process_message` indexes `bytes[0]` and `bytes[1]` unconditionally: a
frame of length 0 or 1 panics out of bounds instead of returning an
error, and under the precondition `length ≥ 2` the panic is
unreachable (the call returns `AudioBytes`). -/
theorem binary_frame_totality (pj : List Char → Option Json)
    (fl : TurnFlags) (bytes : List Nat)
    (hfl : (fl.turn_start || fl.response) = true) :
    (bytes.length < 2 → process_message pj (.binary bytes) fl = (.panicked, fl)) ∧
    (2 ≤ bytes.length → ∃ off : Nat,
      process_message pj (.binary bytes) fl =
        (.ok (some (.audioBytes bytes off)), fl)) := by
  constructor
  · intro hlen
    match bytes, hlen with
    | [], _ =>
      unfold process_message
      rw [hfl]
      rfl
    | [b], _ =>
      unfold process_message
      rw [hfl]
      rfl
  · intro hlen
    match bytes, hlen with
    | b0 :: b1 :: rest, _ =>
      refine ⟨u16FromBe b0 b1 + 2, ?_⟩
      unfold process_message
      rw [hfl]
      rfl

/-- C10 witness: the empty binary frame after `turn.start` panics,
and the two-byte frame `[0x00, 0x00]` does not. -/
theorem binary_frame_totality_witness :
    process_message pj_none (.binary []) ⟨true, false, false⟩ =
      (.panicked, ⟨true, false, false⟩) ∧
    ∃ off : Nat, process_message pj_none (.binary [0, 0]) ⟨true, false, false⟩ =
      (.ok (some (.audioBytes [0, 0] off)), ⟨true, false, false⟩) :=
  ⟨(binary_frame_totality pj_none ⟨true, false, false⟩ [] (by decide)).1 (by decide),
   (binary_frame_totality pj_none ⟨true, false, false⟩ [0, 0] (by decide)).2 (by decide)⟩

/-- C7. One-in-flight invariant of the `Sender`/`Reader` pair: in every
state reachable by completed `send` and `read` operations, at most one
request is outstanding, the gate reads "data pending" exactly while
that one request is being drained, and while it is pending a further
`send` blocks (cannot complete). `reader_read` embeds the reset:
flags cleared and gate dropped exactly when
`turn_start && response && turn_end` holds after classification. -/
theorem pipe_one_in_flight (pj : List Char → Option Json) :
    ∀ s : PipeState, PipeReachable pj s →
      s.outstanding ≤ 1 ∧ (s.can_read = true ↔ s.outstanding = 1) ∧
      (s.can_read = true → sender_send s = none) := by
  intro s h
  have hmain : s.outstanding ≤ 1 ∧ (s.can_read = true ↔ s.outstanding = 1) := by
    induction h with
    | init => exact ⟨by decide, by decide⟩
    | @step s s' _ hstep ih =>
      cases hstep with
      | send s s' hs =>
        unfold sender_send at hs
        split at hs
        · exact absurd hs (by simp)
        · rename_i hcr
          have hout : s.outstanding = 0 := by
            rcases Nat.lt_or_ge s.outstanding 1 with h1 | h1
            · omega
            · have h2 : s.outstanding = 1 := by omega
              exact absurd (ih.2.mpr h2) hcr
          injection hs with hs
          subst hs
          simp [hout]
      | read m s s' out hr =>
        unfold reader_read at hr
        split at hr
        · rename_i hcr
          split at hr
          · rename_i pm fl' hpm
            split at hr
            · injection hr with h1 h2
              subst h2
              have : s.outstanding = 1 := ih.2.mp hcr
              simp [this]
            · injection hr with h1 h2
              subst h2
              refine ⟨ih.1, ?_⟩
              simpa using ih.2
          · simp at hr
          · simp at hr
        · simp at hr
      | readErr m s s' e hr =>
        unfold reader_read at hr
        split at hr
        · rename_i hcr
          split at hr
          · split at hr <;> simp at hr
          · injection hr with h1 h2
            subst h2
            refine ⟨ih.1, ?_⟩
            simpa using ih.2
          · simp at hr
        · simp at hr
  refine ⟨hmain.1, hmain.2, fun hcr => ?_⟩
  unfold sender_send
  rw [if_pos hcr]

/-- C7 witness: the state after one completed `send` from the initial
state — gate raised, one request outstanding, a second `send` blocked. -/
theorem pipe_one_in_flight_witness :
    (⟨true, false, false, false, 1⟩ : PipeState).outstanding ≤ 1 ∧
    ((⟨true, false, false, false, 1⟩ : PipeState).can_read = true ↔
      (⟨true, false, false, false, 1⟩ : PipeState).outstanding = 1) ∧
    ((⟨true, false, false, false, 1⟩ : PipeState).can_read = true →
      sender_send ⟨true, false, false, false, 1⟩ = none) :=
  pipe_one_in_flight pj_none ⟨true, false, false, false, 1⟩
    (.step .init (.send pipe_init ⟨true, false, false, false, 1⟩ rfl))

end MsEdgeTTS
